import Mathlib

/-!
# spx-backend controller: asset and project management

A shallow embedding of `spx-backend/internal/core/controller.go`.

Conventions of the embedding.

* A Go `string` is a sequence of bytes.  It is represented by a Lean `String`
  whose characters stand for the bytes, so `len`, slicing and `+` act on the
  character list.
* A Go `error` is an `Option Err` (`none` is `nil`); a pointer result is an
  `Option` (`none` is `nil`); a pair of results is a pair.
* The two stores (`ctrl.db`, `ctrl.bucket`) are one state of an arbitrary
  type `σ`, passed explicitly.  The functions of the other files of the
  repository and of the libraries that the controller calls are the fields of
  `Env σ`.
* A run-time panic is the constructor `Run.panic`.
-/

namespace Builder

/-! ## Data model -/

/-- Error values: `ErrNotExist` (`os.ErrNotExist`), `common.ErrPermissions`, and
any other error of a collaborator, identified by its message. -/
inductive Err where
  | ErrNotExist
  | ErrPermissions
  | other (msg : String)
  deriving DecidableEq, Repr

/-- Result of a call that may panic. -/
inductive Run (α : Type) where
  | ret (a : α)
  | panic (msg : String)
  deriving DecidableEq, Repr

deriving instance DecidableEq for Except

/-- The value of a Go `int` expression whose mathematical value is `x`: an
`int` has 64 bits, ranges over `-2^63 .. 2^63 - 1`, and its arithmetic wraps
around. -/
def wrapInt (x : Int) : Int := (x + 2 ^ 63) % 2 ^ 64 - 2 ^ 63

/-- The builtin `len` on strings. -/
def len (s : String) : Nat := s.data.length

/-- The slice expression `s[n:]`; `none` is the panic "slice bounds out of range". -/
def sliceFrom (s : String) (n : Nat) : Option String :=
  if n ≤ len s then some ⟨s.data.drop n⟩ else none

/-- `strconv.Itoa` on a non-negative `int` (a loop index): decimal digits. -/
def Itoa (i : Nat) : String := ⟨Nat.toDigits 10 i⟩

/-- A Go `map[string]string`, as the list of its entries.  A well-formed map
has no key twice. -/
abbrev GoMap := List (String × String)

/-- The assignment `m[k] = v`. -/
def GoMap.set : GoMap → String → String → GoMap
  | [], k, v => [(k, v)]
  | (k', v') :: m, k, v => if k' = k then (k, v) :: m else (k', v') :: GoMap.set m k v

/-- The lookup `m[k]`, `none` when the key is absent. -/
def GoMap.get : GoMap → String → Option String
  | [], _ => none
  | (k', v') :: m, k => if k' = k then some v' else GoMap.get m k

/-- The slot names of a map. -/
def GoMap.keys (m : GoMap) : List String := m.map Prod.fst

/-- `type AssetAddressData struct` -/
structure AssetAddressData where
  Assets : GoMap
  IndexJson : String
  /-- The field `Type` (a reserved word here). -/
  Type_ : String
  Url : String
  deriving DecidableEq, Repr

/-- `type Asset struct`; the two `time.Time` fields are numbers. -/
structure Asset where
  ID : String
  Name : String
  AuthorId : String
  Category : String
  IsPublic : Int
  Address : String
  AssetType : String
  ClickCount : String
  Status : Int
  CTime : Nat
  UTime : Nat
  deriving DecidableEq, Repr

/-- `type Project struct`.  `Version` is a Go `int`: a value in
`-2^63 .. 2^63 - 1`, on which `+` wraps around (`wrapInt`). -/
structure Project where
  ID : String
  Name : String
  AuthorId : String
  Address : String
  IsPublic : Int
  Status : Int
  Version : Int
  Ctime : Nat
  Utime : Nat
  deriving DecidableEq, Repr

/-- A `multipart.File`: the bytes it yields, `none` for a nil file. -/
abbrev File := Option (List Nat)

/-- A `*multipart.FileHeader`: its `Filename` and what `Open()` yields (the
error of `Open` is discarded by every caller). -/
structure FileHeader where
  Filename : String
  Open : File
  deriving DecidableEq, Repr

/-- Modelled from the spec: the constant `common.PUBLIC` of package `common`,
which is not among the sources; the value is the one the comment on
`Asset.IsPublic` gives ("1:Public state 0: Personal state"). -/
def PUBLIC : Int := 1

/-- Modelled from the spec: the constant `common.PERSONAL` of package `common`,
which is not among the sources; see `PUBLIC`. -/
def PERSONAL : Int := 0

/-- An SQL value, for `interface{}` arguments. -/
inductive SqlVal where
  | str (s : String)
  | int (n : Int)
  deriving DecidableEq, Repr

/-- `common.FilterCondition` -/
structure FilterCondition where
  Column : String
  Operation : String
  Value : SqlVal
  deriving DecidableEq, Repr

/-- What the controller calls and does not define: the environment
(`os.Getenv`), `encoding/json` at the types used, the helpers of package
`common` and of the sibling files, and the two stores.  Reads take the state;
writes return the new state as well. -/
structure Env (σ : Type) where
  /-- `os.Getenv` -/
  Getenv : String → String
  /-- `time.Now()`; the clock is part of the state. -/
  Now : σ → Nat × σ
  /-- `strconv.Atoi`: the value and the error. -/
  Atoi : String → Int × Option Err
  /-- `json.Unmarshal` into an `AssetAddressData` -/
  UnmarshalAddressData : String → Except Err AssetAddressData
  /-- `json.Marshal` of an `AssetAddressData` -/
  MarshalAddressData : AssetAddressData → Except Err String
  /-- `json.Unmarshal` into the struct of `SaveAsset` (`assets`, `indexJson`) -/
  UnmarshalSound : String → Except Err (GoMap × String)
  /-- `json.Marshal` of a `map[string]map[string]string` -/
  MarshalNested : List (String × GoMap) → Except Err String
  /-- `common.QueryById[Project]` -/
  QueryByIdProject : σ → String → Option Project × Option Err
  /-- `common.QueryById[Asset]` -/
  QueryByIdAsset : σ → String → Option Asset × Option Err
  /-- `ctrl.bucket.Delete` -/
  BucketDelete : σ → String → Option Err × σ
  /-- `UploadFile(ctx, ctrl, blobKey, file, originalFilename)` -/
  UploadFile : σ → String → File → String → (String × Option Err) × σ
  /-- `DeleteProjectById` -/
  DeleteProjectById : σ → String → Option Err × σ
  /-- `AddProject` -/
  AddProject : σ → Project → (String × Option Err) × σ
  /-- `UpdateProject` -/
  UpdateProject : σ → Project → Option Err × σ
  /-- `GetProjectAddress` -/
  GetProjectAddress : σ → String → String
  /-- `GetProjectVersion`, a Go `int` -/
  GetProjectVersion : σ → String → Int
  /-- `GetAssetAddress` -/
  GetAssetAddress : σ → String → String
  /-- `UpdateAsset` -/
  UpdateAsset : σ → Asset → Option Err × σ
  /-- `AddAsset` -/
  AddAsset : σ → Asset → (String × Option Err) × σ
  /-- Lines 513-542 of `ImagesToGif`: load the frames, encode them, and reopen
  the file `output.gif`; the error is the first one met. -/
  ComposeGif : List FileHeader → Except Err File
  /-- The collation of the text columns of table `asset`, as `LIKE` uses it:
  whether a character of the pattern and a character of the value compare
  equal (under a binary collation, when they are the same character; under
  the default collations of MySQL, also when they differ in case only). -/
  Collate : Char → Char → Bool
  /-- The comparison `=` of the database engine on two text values, under the
  collation of the column. -/
  StrEq : String → String → Bool
  /-- The rows of table `asset`, in the order a `SELECT` yields them. -/
  AssetRows : σ → List Asset
  /-- The error of `ctrl.db.Query`, if the statement fails. -/
  QueryFault : σ → Option Err

variable {σ : Type}

/-! ## Address codec -/

/-- The loop of `ModifyAssetAddress`:
`for key, value := range data.Assets { data.Assets[key] = qiniuPath + "/" + value }`. -/
def rewriteAssets (qiniuPath : String) (assets : GoMap) : GoMap :=
  assets.foldl (fun m kv => GoMap.set m kv.1 (qiniuPath ++ "/" ++ kv.2)) assets

/-- The in-place update of `data` in `ModifyAssetAddress`, between
`json.Unmarshal` and `json.Marshal`. -/
def rewriteManifest (qiniuPath : String) (data : AssetAddressData) : AssetAddressData :=
  let data := { data with Assets := rewriteAssets qiniuPath data.Assets }
  let data := if data.IndexJson ≠ "" then
    { data with IndexJson := qiniuPath ++ "/" ++ data.IndexJson } else data
  let data := if data.Url ≠ "" then
    { data with Url := qiniuPath ++ "/" ++ data.Url } else data
  data

/-- `func (ctrl *Controller) ModifyAssetAddress(address string) (string, error)` -/
def ModifyAssetAddress (env : Env σ) (address : String) : String × Option Err :=
  match env.UnmarshalAddressData address with
  | .error err => ("", some err)
  | .ok data =>
    let qiniuPath := env.Getenv "QINIU_PATH"
    match env.MarshalAddressData (rewriteManifest qiniuPath data) with
    | .error err => ("", some err)
    | .ok modifiedAddress => (modifiedAddress, none)

/-! ## Project service -/

/-- `func (ctrl *Controller) ProjectInfo(ctx, id string) (*Project, error)`.
The second branch is `if pro == nil { return nil, err }`, reached with a nil
`err`. -/
def ProjectInfo (env : Env σ) (s : σ) (id : String) : Option Project × Option Err :=
  if id ≠ "" then
    match env.QueryByIdProject s id with
    | (_, some err) => (none, some err)
    | (none, err) => (none, err)
    | (some pro, none) =>
      (some { pro with Address := env.Getenv "QINIU_PATH" ++ "/" ++ pro.Address }, none)
  else (none, some Err.ErrNotExist)

/-- `func (ctrl *Controller) DeleteProject(ctx, id string, userId string) error`.
The error of `QueryById` is not looked at; a nil `project` panics at
`project.AuthorId`. -/
def DeleteProject (env : Env σ) (s : σ) (id userId : String) : Run (Option Err) × σ :=
  match env.QueryByIdProject s id with
  | (none, _) => (Run.panic "invalid memory address or nil pointer dereference", s)
  | (some project, _) =>
    if project.AuthorId ≠ userId then (Run.ret (some Err.ErrPermissions), s)
    else
      match env.BucketDelete s project.Address with
      | (some err, s1) => (Run.ret (some err), s1)
      | (none, s1) =>
        let r := env.DeleteProjectById s1 id
        (Run.ret r.1, r.2)

/-- `func (ctrl *Controller) SaveProject(ctx, project, file, header) (*Project, error)` -/
def SaveProject (env : Env σ) (s : σ) (project : Project) (file : File)
    (header : FileHeader) : (Option Project × Option Err) × σ :=
  if project.ID = "" then
    match env.UploadFile s (env.Getenv "PROJECT_PATH") file header.Filename with
    | ((_, some err), s1) => ((none, some err), s1)
    | ((path, none), s1) =>
      let project := { project with
        Address := path, Version := 1, Status := 1, IsPublic := PERSONAL }
      match env.AddProject s1 project with
      | ((id, err), s2) => ((some { project with ID := id }, err), s2)
  else
    let address := env.GetProjectAddress s project.ID
    let version := env.GetProjectVersion s project.ID
    match env.BucketDelete s address with
    | (some err, s1) => ((none, some err), s1)
    | (none, s1) =>
      match env.UploadFile s1 (env.Getenv "PROJECT_PATH") file header.Filename with
      | ((_, some err), s2) => ((none, some err), s2)
      | ((path, none), s2) =>
        let project := { project with Address := path, Version := wrapInt (version + 1) }
        match env.UpdateProject s2 project with
        | (err, s3) => ((some project, err), s3)

/-! ## Asset service -/

/-- `func (ctrl *Controller) Asset(ctx, id string) (*Asset, error)` -/
def Controller.Asset (env : Env σ) (s : σ) (id : String) : Option Asset × Option Err :=
  match env.QueryByIdAsset s id with
  | (_, some err) => (none, some err)
  | (none, err) => (none, err)
  | (some asset, none) =>
    match ModifyAssetAddress env asset.Address with
    | (_, some err) => (none, some err)
    | (modifiedAddress, none) => (some { asset with Address := modifiedAddress }, none)

/-- The `wheres` that `AssetPubList` passes to `common.QueryByPage[Asset]`. -/
def AssetPubList_wheres (assetType category : String) : List FilterCondition :=
  let wheres : List FilterCondition :=
    [{ Column := "asset_type", Operation := "=", Value := SqlVal.str assetType }]
  let wheres := wheres ++ [{ Column := "is_public", Operation := "=", Value := SqlVal.int PUBLIC }]
  let wheres := if category ≠ "" then
    wheres ++ [{ Column := "category", Operation := "=", Value := SqlVal.str category }]
    else wheres
  wheres

/-- The `wheres` that `UserAssetList` passes to `common.QueryByPage[Asset]`. -/
def UserAssetList_wheres (assetType category uid : String) : List FilterCondition :=
  let wheres : List FilterCondition :=
    [{ Column := "asset_type", Operation := "=", Value := SqlVal.str assetType }]
  let wheres := if category ≠ "" then
    wheres ++ [{ Column := "category", Operation := "=", Value := SqlVal.str category }]
    else wheres
  let wheres := wheres ++ [{ Column := "author_id", Operation := "=", Value := SqlVal.str uid }]
  wheres

/-- Modelled from the spec: the columns of table `asset` (section 6, "Persisted
relational schema"), the table itself being created outside the sources.  The
value of a column in a row; the two time columns are numbers here. -/
def assetColumn (column : String) (a : Asset) : Option SqlVal :=
  if column = "id" then some (SqlVal.str a.ID)
  else if column = "name" then some (SqlVal.str a.Name)
  else if column = "author_id" then some (SqlVal.str a.AuthorId)
  else if column = "category" then some (SqlVal.str a.Category)
  else if column = "is_public" then some (SqlVal.int a.IsPublic)
  else if column = "address" then some (SqlVal.str a.Address)
  else if column = "asset_type" then some (SqlVal.str a.AssetType)
  else if column = "click_count" then some (SqlVal.str a.ClickCount)
  else if column = "status" then some (SqlVal.int a.Status)
  else if column = "c_time" then some (SqlVal.int a.CTime)
  else if column = "u_time" then some (SqlVal.int a.UTime)
  else none

/-- Modelled from the spec: how `common.QueryByPage`, which is not among the
sources, reads one filter (section 4.1: a filter is `{column, op, value}`).
The controller only builds filters with the operation `=`. -/
def FilterCondition.holds (c : FilterCondition) (a : Asset) : Bool :=
  if c.Operation = "=" then assetColumn c.Column a == some c.Value else false

/-- Modelled from the spec: the rows that `common.QueryByPage`, which is not
among the sources, selects for a filter list (section 4.1: "an ordered list of
`{column, op, value}` combined by AND"). -/
def selectedBy (wheres : List FilterCondition) (a : Asset) : Bool :=
  wheres.all (fun c => c.holds a)

/-- The SQL predicate `s LIKE pattern` of the database engine, which matches
character by character: `%` stands for any sequence of characters, `_` for any
one character, a backslash makes the character after it stand for itself, and
any other character of the pattern stands for the characters that compare
equal to it under the collation `eqv` of the column. -/
def sqlLike (eqv : Char → Char → Bool) : List Char → List Char → Bool
  | [], s => s.isEmpty
  | p :: ps, s =>
    if p = '%' then s.tails.any (fun t => sqlLike eqv ps t)
    else
      match s with
      | [] => false
      | c :: cs =>
        if p = '_' then sqlLike eqv ps cs
        else if p = '\\' then
          match ps with
          | [] => eqv '\\' c && cs.isEmpty
          | q :: qs => eqv q c && sqlLike eqv qs cs
        else eqv p c && sqlLike eqv ps cs

/-- `ctrl.db.Query(query, args...)` for a `SELECT * FROM asset WHERE ...`: the
error of the statement, or the rows of the table that satisfy the WHERE
clause.  Rows are typed, so `rows.Scan` into the fields of an `Asset` succeeds. -/
def dbQuery (env : Env σ) (s : σ) (whereClause : Asset → Bool) : Except Err (List Asset) :=
  match env.QueryFault s with
  | some err => Except.error err
  | none => Except.ok ((env.AssetRows s).filter whereClause)

/-- The WHERE clause of the statement that `SearchAsset` runs, with its
arguments bound:
`name LIKE ? AND asset_type = ? AND is_public = 1` when `userId == ""`, else
`name LIKE ? AND asset_type = ? AND (is_public = 1 OR author_id = ?)`.
`LIKE` and `=` on the text columns are those of the engine, under the
collation of the columns; `is_public = 1` compares integers. -/
def SearchAsset_where (env : Env σ) (search assetType userId : String) : Asset → Bool :=
  let searchString := "%" ++ search ++ "%"
  if userId = "" then
    fun r => sqlLike env.Collate searchString.data r.Name.data
      && env.StrEq r.AssetType assetType && r.IsPublic == 1
  else
    fun r => sqlLike env.Collate searchString.data r.Name.data
      && env.StrEq r.AssetType assetType
      && (r.IsPublic == 1 || env.StrEq r.AuthorId userId)

/-- `func (ctrl *Controller) SearchAsset(ctx, search, assetType, userId) ([]*Asset, error)`.
A nil slice is the empty list. -/
def SearchAsset (env : Env σ) (s : σ) (search assetType userId : String) :
    List Asset × Option Err :=
  match dbQuery env s (SearchAsset_where env search assetType userId) with
  | .error err => ([], some err)
  | .ok rows =>
    let assets := rows.foldl
      (fun assets asset =>
        assets ++ [{ asset with Address := (ModifyAssetAddress env asset.Address).1 }]) []
    if assets.length = 0 then ([], none) else (assets, none)

/-- `func (ctrl *Controller) SaveAsset(ctx, asset, file, header) (*Asset, error)`.
The `range` loop takes one entry of the map and stops; the error of
`UploadFile` is assigned to `err` and `err` is assigned again by
`json.Marshal` before it is read. -/
def SaveAsset (env : Env σ) (s : σ) (asset : Asset) (file : File) (header : FileHeader) :
    (Option Asset × Option Err) × σ :=
  let address := env.GetAssetAddress s asset.ID
  match env.UnmarshalSound address with
  | .error err => ((none, some err), s)
  | .ok data =>
    let address := match data.1 with
      | [] => address
      | (_, value) :: _ => value
    match env.BucketDelete s address with
    | (some err, s1) => ((none, some err), s1)
    | (none, s1) =>
      match env.UploadFile s1 (env.Getenv "SOUNDS_PATH") file header.Filename with
      | ((path, _), s2) =>
        match env.MarshalNested [("assets", [("sound", path)])] with
        | .error err => ((none, some err), s2)
        | .ok jsonBytes =>
          let asset := { asset with Address := jsonBytes }
          match env.UpdateAsset s2 asset with
          | (err, s3) => ((some asset, err), s3)

/-! ## Media helper and sprite ingest -/

/-- `func (ctrl *Controller) ImagesToGif(ctx, files) (string, error)` -/
def ImagesToGif (env : Env σ) (s : σ) (files : List FileHeader) : (String × Option Err) × σ :=
  match env.ComposeGif files with
  | .error err => (("", some err), s)
  | .ok f =>
    match env.UploadFile s (env.Getenv "GIF_PATH") f "output.gif" with
    | ((_, some err), s1) => (("", some err), s1)
    | ((path, none), s1) => ((env.Getenv "QINIU_PATH" ++ "/" ++ path, none), s1)

/-- The loop `for i, fileHeader := range files` of `UploadSprite`, from index
`i` on, over the map `assets` built so far. -/
def uploadFrames (env : Env σ) : σ → Nat → List FileHeader → GoMap → Except Err GoMap × σ
  | s, _, [], assets => (Except.ok assets, s)
  | s, i, fileHeader :: files, assets =>
    match env.UploadFile s (env.Getenv "SPRITE_PATH") fileHeader.Open fileHeader.Filename with
    | ((_, some err), s1) => (Except.error err, s1)
    | ((path, none), s1) =>
      uploadFrames env s1 (i + 1) files (GoMap.set assets ("image" ++ Itoa i) path)

/-- Lines 552-579 of `UploadSprite`: the `AssetAddressData` it builds. -/
def UploadSprite_data (env : Env σ) (s : σ) (files : List FileHeader) (gifPath : String) :
    Run (Except Err AssetAddressData) × σ :=
  let data : AssetAddressData := { Assets := [], IndexJson := "index.json", Type_ := "", Url := "" }
  match files with
  | [file0] =>
    match env.UploadFile s (env.Getenv "SPRITE_PATH") file0.Open file0.Filename with
    | ((_, some err), s1) => (Run.ret (Except.error err), s1)
    | ((path, none), s1) =>
      (Run.ret (Except.ok { data with Type_ := "image", Assets := GoMap.set [] "image" path }), s1)
  | _ =>
    match uploadFrames env s 0 files [] with
    | (.error err, s1) => (Run.ret (Except.error err), s1)
    | (.ok assets, s1) =>
      match sliceFrom gifPath (len (env.Getenv "QINIU_PATH")) with
      | none => (Run.panic "slice bounds out of range", s1)
      | some url => (Run.ret (Except.ok { data with Type_ := "gif", Assets := assets, Url := url }), s1)

/-- `func (ctrl *Controller) UploadSprite(ctx, name, files, gifPath, uid, tag, publishState) error` -/
def UploadSprite (env : Env σ) (s : σ) (name : String) (files : List FileHeader)
    (gifPath uid tag publishState : String) : Run (Option Err) × σ :=
  match UploadSprite_data env s files gifPath with
  | (.panic msg, s1) => (Run.panic msg, s1)
  | (.ret (.error err), s1) => (Run.ret (some err), s1)
  | (.ret (.ok data), s1) =>
    match env.MarshalAddressData data with
    | .error err => (Run.ret (some err), s1)
    | .ok jsonData =>
      let isPublic := (env.Atoi publishState).1
      let (cTime, s2) := env.Now s1
      let (uTime, s3) := env.Now s2
      let r := env.AddAsset s3 {
        ID := "", Name := name, AuthorId := uid, Category := tag, IsPublic := isPublic,
        Address := jsonData, AssetType := "0", ClickCount := "0", Status := 1,
        CTime := cTime, UTime := uTime }
      (Run.ret r.1.2, r.2)

/-! ## A sample environment

One implementation of the collaborators, on which the controller can be run on
concrete inputs. -/

/-- The state of the sample environment: the two tables, the keys present in
the bucket, a counter from which keys and ids are drawn, the clock, and the
failure (if any) that the next delete, upload or database statement meets. -/
structure Store where
  project : List Project
  asset : List Asset
  blobs : List String
  serial : Nat
  clock : Nat
  deleteFault : Option Err
  uploadFault : Option Err
  dbFault : Option Err
  deriving DecidableEq, Repr

/-- A JSON string literal of the sample encoder (no escaping). -/
def quote (s : String) : String := "\x22" ++ s ++ "\x22"

/-- A JSON object of strings of the sample encoder. -/
def renderMap (m : GoMap) : String :=
  "\x7b" ++ ",".intercalate (m.map (fun kv => quote kv.1 ++ ":" ++ quote kv.2)) ++ "\x7d"

/-- The document `json.Marshal` yields for an `AssetAddressData` (sample encoder). -/
def renderAddressData (d : AssetAddressData) : String :=
  "\x7b" ++ quote "assets" ++ ":" ++ renderMap d.Assets ++ "," ++ quote "indexJson" ++ ":"
    ++ quote d.IndexJson ++ "," ++ quote "type" ++ ":" ++ quote d.Type_ ++ ","
    ++ quote "url" ++ ":" ++ quote d.Url ++ "\x7d"

/-- The document `json.Marshal` yields for a map of maps (sample encoder). -/
def renderNested (m : List (String × GoMap)) : String :=
  "\x7b" ++ ",".intercalate (m.map (fun kv => quote kv.1 ++ ":" ++ renderMap kv.2)) ++ "\x7d"

/-- A sound manifest. -/
def soundManifest : AssetAddressData :=
  { Assets := [("sound", "sounds/a.wav")], IndexJson := "", Type_ := "", Url := "" }

/-- A sound manifest whose slot holds the empty string. -/
def emptySoundManifest : AssetAddressData :=
  { Assets := [("sound", "")], IndexJson := "", Type_ := "", Url := "" }

/-- A one-image sprite manifest. -/
def imageManifest : AssetAddressData :=
  { Assets := [("image", "sprites/cat.svg")], IndexJson := "index.json", Type_ := "image",
    Url := "" }

/-- A two-frame sprite manifest. -/
def gifManifest : AssetAddressData :=
  { Assets := [("image0", "sprites/a.png"), ("image1", "sprites/b.png")],
    IndexJson := "index.json", Type_ := "gif", Url := "gifs/x.gif" }

/-- The manifests whose documents the sample decoder reads. -/
def sampleManifests : List AssetAddressData :=
  [soundManifest, emptySoundManifest, imageManifest, gifManifest]

/-- The sample decoder: it reads the documents of `sampleManifests`, and any
other input is a syntax error. -/
def sampleUnmarshal (address : String) : Except Err AssetAddressData :=
  match sampleManifests.find? (fun d => renderAddressData d == address) with
  | some d => Except.ok d
  | none => Except.error (Err.other "invalid character")

/-- Decimal value of a string of digits, for the sample `strconv.Atoi`. -/
def sampleAtoi (s : String) : Int × Option Err :=
  if s.data ≠ [] ∧ s.data.all Char.isDigit then
    (Int.ofNat (s.data.foldl (fun n c => 10 * n + (c.toNat - 48)) 0), none)
  else (0, some (Err.other "invalid syntax"))

/-- A collation that does not tell the case of the letters `A`-`Z` apart, as the
default collations of MySQL do not. -/
def sampleCollate (a b : Char) : Bool := a.toLower == b.toLower

/-- The comparison `=` under `sampleCollate`. -/
def sampleStrEq (x y : String) : Bool := x.data.map Char.toLower == y.data.map Char.toLower

/-- The configuration of the sample environment. -/
def sampleGetenv (name : String) : String :=
  if name = "QINIU_PATH" then "https://cdn"
  else if name = "PROJECT_PATH" then "projects"
  else if name = "SPRITE_PATH" then "sprites"
  else if name = "SOUNDS_PATH" then "sounds"
  else if name = "GIF_PATH" then "gifs"
  else ""

/-- Modelled from the spec: a sample implementation of the collaborators that
are not among the sources, after sections 4.1 and 4.2: `queryById` "returns
the row or absent; err reserved for infrastructure failures", `put` returns a
fresh key `<prefix>/<token>` (here followed by the file name), `delete` is
idempotent, inserts draw a fresh id, updates replace the row with the same id. -/
def sampleEnv : Env Store where
  Getenv := sampleGetenv
  Now := fun s => (s.clock, { s with clock := s.clock + 1 })
  Atoi := sampleAtoi
  UnmarshalAddressData := sampleUnmarshal
  MarshalAddressData := fun d => Except.ok (renderAddressData d)
  UnmarshalSound := fun address =>
    match sampleUnmarshal address with
    | .ok d => Except.ok (d.Assets, d.IndexJson)
    | .error err => Except.error err
  MarshalNested := fun m => Except.ok (renderNested m)
  QueryByIdProject := fun s id =>
    match s.dbFault with
    | some err => (none, some err)
    | none => (s.project.find? (fun p => p.ID == id), none)
  QueryByIdAsset := fun s id =>
    match s.dbFault with
    | some err => (none, some err)
    | none => (s.asset.find? (fun a => a.ID == id), none)
  BucketDelete := fun s key =>
    match s.deleteFault with
    | some err => (some err, s)
    | none => (none, { s with blobs := s.blobs.filter (fun k => k != key) })
  UploadFile := fun s blobKey _ name =>
    match s.uploadFault with
    | some err => (("", some err), s)
    | none =>
      let key := blobKey ++ "/" ++ Itoa s.serial ++ "-" ++ name
      ((key, none), { s with blobs := key :: s.blobs, serial := s.serial + 1 })
  DeleteProjectById := fun s id =>
    match s.dbFault with
    | some err => (some err, s)
    | none => (none, { s with project := s.project.filter (fun p => p.ID != id) })
  AddProject := fun s p =>
    match s.dbFault with
    | some err => (("", some err), s)
    | none =>
      let id := Itoa s.serial
      ((id, none), { s with project := s.project ++ [{ p with ID := id }], serial := s.serial + 1 })
  UpdateProject := fun s p =>
    match s.dbFault with
    | some err => (some err, s)
    | none => (none, { s with project := s.project.map (fun q => if q.ID == p.ID then p else q) })
  GetProjectAddress := fun s id =>
    match s.project.find? (fun p => p.ID == id) with
    | some p => p.Address
    | none => ""
  GetProjectVersion := fun s id =>
    match s.project.find? (fun p => p.ID == id) with
    | some p => p.Version
    | none => 0
  GetAssetAddress := fun s id =>
    match s.asset.find? (fun a => a.ID == id) with
    | some a => a.Address
    | none => ""
  UpdateAsset := fun s a =>
    match s.dbFault with
    | some err => (some err, s)
    | none => (none, { s with asset := s.asset.map (fun b => if b.ID == a.ID then a else b) })
  AddAsset := fun s a =>
    match s.dbFault with
    | some err => (("", some err), s)
    | none =>
      let id := Itoa s.serial
      ((id, none), { s with asset := s.asset ++ [{ a with ID := id }], serial := s.serial + 1 })
  ComposeGif := fun files =>
    if files.isEmpty then Except.error (Err.other "no frames") else Except.ok (some [71, 73, 70])
  Collate := sampleCollate
  StrEq := sampleStrEq
  AssetRows := fun s => s.asset
  QueryFault := fun s => s.dbFault

/-- The sample environment on a database whose text columns have a binary
collation: characters and strings are compared exactly. -/
def binaryEnv : Env Store :=
  { sampleEnv with Collate := fun a b => a == b, StrEq := fun x y => x == y }

/-- An empty store in which nothing fails. -/
def emptyStore : Store :=
  { project := [], asset := [], blobs := [], serial := 1, clock := 100,
    deleteFault := none, uploadFault := none, dbFault := none }

/-- A project of user `u1`, as a first save stores it. -/
def projectA : Project :=
  { ID := "p1", Name := "A", AuthorId := "u1", Address := "projects/1-a.zip",
    IsPublic := PERSONAL, Status := 1, Version := 1, Ctime := 100, Utime := 100 }

/-- A store that holds `projectA` and its blob. -/
def storeA : Store :=
  { emptyStore with project := [projectA], blobs := ["projects/1-a.zip"], serial := 2 }

/-- An upload, as the multipart form delivers it. -/
def zipHeader : FileHeader := { Filename := "a.zip", Open := some [222, 173, 190, 239] }

/-- The project of scenario S1 before its first save. -/
def newProject : Project :=
  { ID := "", Name := "A", AuthorId := "u1", Address := "", IsPublic := 0, Status := 0,
    Version := 0, Ctime := 100, Utime := 100 }

/-- The store `storeA` with a bucket whose deletes fail. -/
def storeDeleteDown : Store := { storeA with deleteFault := some (Err.other "bucket down") }

/-- The store `storeA` with a bucket whose uploads fail. -/
def storeUploadDown : Store := { storeA with uploadFault := some (Err.other "bucket down") }

/-- The name contains the query up to the collation `eqv`: a run of characters
of `name`, as long as `q`, compares equal to `q` character by character. -/
def containsUnder (eqv : Char → Char → Bool) (q name : List Char) : Prop :=
  ∃ pre mid post, name = pre ++ mid ++ post ∧ List.Forall₂ (fun a b => eqv a b = true) q mid

/-- The project `projectA` at the largest version an `int` holds. -/
def projectMax : Project := { projectA with Version := 9223372036854775807 }

/-- A store that holds `projectMax` and its blob. -/
def storeMax : Store :=
  { emptyStore with project := [projectMax], blobs := ["projects/1-a.zip"], serial := 2 }

/-- The number a string of decimal digits stands for. -/
def decimalValue (l : List Char) : Nat := l.foldl (fun a c => 10 * a + (c.toNat - 48)) 0

/-- The uploads of `files` under `SPRITE_PATH`, run in order from state `s`,
all succeed, return the keys `keys` in that order, and leave state `s1`. -/
def uploadsYield (env : Env σ) : σ → List FileHeader → List String → σ → Prop
  | s, [], [], s1 => s1 = s
  | s, f :: fs, k :: ks, s1 =>
    (env.UploadFile s (env.Getenv "SPRITE_PATH") f.Open f.Filename).1 = (k, none)
      ∧ uploadsYield env (env.UploadFile s (env.Getenv "SPRITE_PATH") f.Open f.Filename).2 fs ks s1
  | _, _, _, _ => False

/-- The slots `image{i}`, `image{i+1}`, ... holding the given keys in order. -/
def frameSlots : Nat → List String → GoMap
  | _, [] => []
  | i, k :: ks => ("image" ++ Itoa i, k) :: frameSlots (i + 1) ks

/-- Three frames of a sprite. -/
def frames3 : List FileHeader :=
  [{ Filename := "f1.png", Open := some [1] }, { Filename := "f2.png", Open := some [2] },
    { Filename := "f3.png", Open := some [3] }]

/-- The manifest that `UploadSprite` builds for `frames3` and the animated URL
`https://cdn/gifs/x.gif` on the empty sample store. -/
def frames3Manifest : AssetAddressData :=
  { Assets := [("image0", "sprites/1-f1.png"), ("image1", "sprites/2-f2.png"),
      ("image2", "sprites/3-f3.png")],
    IndexJson := "index.json", Type_ := "gif", Url := "/gifs/x.gif" }

/-- The public asset A of user `u1` (scenario S6). -/
def assetA : Asset :=
  { ID := "a", Name := "cat", AuthorId := "u1", Category := "animal", IsPublic := 1,
    Address := renderAddressData imageManifest, AssetType := "0", ClickCount := "0",
    Status := 1, CTime := 100, UTime := 100 }

/-- The private asset B of user `u2` (scenario S6). -/
def assetB : Asset :=
  { ID := "b", Name := "dog", AuthorId := "u2", Category := "animal", IsPublic := 0,
    Address := renderAddressData gifManifest, AssetType := "0", ClickCount := "0",
    Status := 1, CTime := 101, UTime := 101 }

/-- The manifest of asset A with the public URLs. -/
def imageManifest_read : AssetAddressData :=
  { Assets := [("image", "https://cdn/sprites/cat.svg")], IndexJson := "https://cdn/index.json",
    Type_ := "image", Url := "" }

/-- The manifest of asset B with the public URLs. -/
def gifManifest_read : AssetAddressData :=
  { Assets := [("image0", "https://cdn/sprites/a.png"), ("image1", "https://cdn/sprites/b.png")],
    IndexJson := "https://cdn/index.json", Type_ := "gif", Url := "https://cdn/gifs/x.gif" }

/-- The asset A as a read returns it, with the public URLs in its address. -/
def assetA_read : Asset := { assetA with Address := renderAddressData imageManifest_read }

/-- The asset B as a read returns it, with the public URLs in its address. -/
def assetB_read : Asset := { assetB with Address := renderAddressData gifManifest_read }

/-- The store of scenario S6. -/
def storeAB : Store := { emptyStore with asset := [assetA, assetB] }

/-- A public asset whose row has `status = 0`. -/
def assetDeleted : Asset := { assetA with ID := "d", Status := 0 }

/-- A store that holds the row `assetDeleted` only. -/
def storeDeleted : Store := { emptyStore with asset := [assetDeleted] }

/-- A public asset whose address is not a JSON document. -/
def assetBroken : Asset := { assetA with ID := "x", Address := "sprites/cat.svg" }

/-- A store that holds the row `assetBroken` only. -/
def storeBroken : Store := { emptyStore with asset := [assetBroken] }

/-- A sound asset of user `u1`. -/
def assetSound : Asset :=
  { ID := "s1", Name := "meow", AuthorId := "u1", Category := "animal", IsPublic := 1,
    Address := renderAddressData soundManifest, AssetType := "2", ClickCount := "0",
    Status := 1, CTime := 100, UTime := 100 }

/-- A store that holds `assetSound` and its blob, with a bucket whose uploads fail. -/
def storeSoundUploadDown : Store :=
  { emptyStore with
    asset := [assetSound], blobs := ["sounds/a.wav"],
    uploadFault := some (Err.other "bucket down") }

/-- An upload of a sound file. -/
def wavHeader : FileHeader := { Filename := "b.wav", Open := some [82, 73, 70, 70] }

/-! ## Lemmas on maps -/

theorem GoMap.set_append_of_not_mem (pre rest : GoMap) (k v w : String)
    (hk : k ∉ GoMap.keys pre) :
    GoMap.set (pre ++ (k, v) :: rest) k w = pre ++ (k, w) :: rest := by
  induction pre with
  | nil => simp [GoMap.set]
  | cons hd tl ih =>
    obtain ⟨k1, v1⟩ := hd
    have hne : k1 ≠ k := by
      intro h
      exact hk (by simp [GoMap.keys, h])
    have htl : k ∉ GoMap.keys tl := by
      intro h
      exact hk (by simp [GoMap.keys] at h ⊢; exact Or.inr h)
    simp [GoMap.set, hne, ih htl]

theorem rewriteAssets_fold (f : String → String) (suf pre : GoMap)
    (hdisj : ∀ k ∈ GoMap.keys suf, k ∉ GoMap.keys pre) (hnd : (GoMap.keys suf).Nodup) :
    suf.foldl (fun m kv => GoMap.set m kv.1 (f kv.2)) (pre ++ suf)
      = pre ++ suf.map (fun kv => (kv.1, f kv.2)) := by
  induction suf generalizing pre with
  | nil => simp
  | cons hd tl ih =>
    obtain ⟨k, v⟩ := hd
    have hk : k ∉ GoMap.keys pre := hdisj k (by simp [GoMap.keys])
    have hnd2 : k ∉ GoMap.keys tl ∧ (GoMap.keys tl).Nodup := by
      simpa [GoMap.keys] using hnd
    simp only [List.foldl_cons, List.map_cons]
    rw [GoMap.set_append_of_not_mem pre tl k v (f v) hk]
    have hstep := ih (pre ++ [(k, f v)]) (by
      intro k2 hk2 hmem
      simp only [GoMap.keys, List.map_append, List.map_cons, List.map_nil, List.mem_append,
        List.mem_singleton] at hmem
      rcases hmem with h | h
      · exact hdisj k2 (by simp only [GoMap.keys, List.map_cons, List.mem_cons]; exact Or.inr hk2) h
      · exact hnd2.1 (h ▸ hk2)) hnd2.2
    simpa [List.append_assoc] using hstep

theorem rewriteAssets_eq_map (p : String) (m : GoMap) (hnd : (GoMap.keys m).Nodup) :
    rewriteAssets p m = m.map (fun kv => (kv.1, p ++ "/" ++ kv.2)) := by
  have h := rewriteAssets_fold (fun v => p ++ "/" ++ v) m [] (by simp [GoMap.keys]) hnd
  simpa [rewriteAssets] using h

theorem GoMap.get_map_value (f : String → String) (m : GoMap) (k : String) :
    GoMap.get (m.map (fun kv => (kv.1, f kv.2))) k = (GoMap.get m k).map f := by
  induction m with
  | nil => simp [GoMap.get]
  | cons hd tl ih =>
    obtain ⟨k1, v1⟩ := hd
    by_cases h : k1 = k <;> simp [GoMap.get, h, ih]

/-! ## C1: address rewriting -/

/-- C1 (as amended).  When the stored address decodes to a manifest `data` (a
map has no slot name twice), `ModifyAssetAddress` returns the encoding of the
manifest in which every value of `assets`, empty or not, is replaced by
`p + "/" + value`, a non-empty `indexJson` and `url` are replaced by
`p + "/" + value`, an empty `indexJson` and `url` stay empty, and `type` and
the slot names are unchanged; `p` is the configured `QINIU_PATH`. -/
theorem ModifyAssetAddress_rewrites (env : Env σ) (address : String) (data : AssetAddressData)
    (hdec : env.UnmarshalAddressData address = Except.ok data)
    (hwf : (GoMap.keys data.Assets).Nodup) :
    ModifyAssetAddress env address
        = (match env.MarshalAddressData (rewriteManifest (env.Getenv "QINIU_PATH") data) with
          | .ok j => (j, none)
          | .error err => ("", some err))
      ∧ (rewriteManifest (env.Getenv "QINIU_PATH") data).Assets
          = data.Assets.map (fun kv => (kv.1, env.Getenv "QINIU_PATH" ++ "/" ++ kv.2))
      ∧ (∀ k v, GoMap.get data.Assets k = some v →
          GoMap.get (rewriteManifest (env.Getenv "QINIU_PATH") data).Assets k
            = some (env.Getenv "QINIU_PATH" ++ "/" ++ v))
      ∧ (rewriteManifest (env.Getenv "QINIU_PATH") data).IndexJson
          = (if data.IndexJson = "" then "" else env.Getenv "QINIU_PATH" ++ "/" ++ data.IndexJson)
      ∧ (rewriteManifest (env.Getenv "QINIU_PATH") data).Url
          = (if data.Url = "" then "" else env.Getenv "QINIU_PATH" ++ "/" ++ data.Url)
      ∧ (rewriteManifest (env.Getenv "QINIU_PATH") data).Type_ = data.Type_
      ∧ GoMap.keys (rewriteManifest (env.Getenv "QINIU_PATH") data).Assets
          = GoMap.keys data.Assets := by
  have hA : (rewriteManifest (env.Getenv "QINIU_PATH") data).Assets
      = data.Assets.map (fun kv => (kv.1, env.Getenv "QINIU_PATH" ++ "/" ++ kv.2)) := by
    have h := rewriteAssets_eq_map (env.Getenv "QINIU_PATH") data.Assets hwf
    unfold rewriteManifest
    by_cases h1 : data.IndexJson = "" <;> by_cases h2 : data.Url = "" <;> simp [h1, h2, h]
  refine ⟨?_, hA, ?_, ?_, ?_, ?_, ?_⟩
  · cases h : env.MarshalAddressData (rewriteManifest (env.Getenv "QINIU_PATH") data) <;>
      simp [ModifyAssetAddress, hdec, h]
  · intro k v hkv
    rw [hA, GoMap.get_map_value (fun v => env.Getenv "QINIU_PATH" ++ "/" ++ v), hkv]
    rfl
  · unfold rewriteManifest
    by_cases h1 : data.IndexJson = "" <;> by_cases h2 : data.Url = "" <;> simp [h1, h2]
  · unfold rewriteManifest
    by_cases h1 : data.IndexJson = "" <;> by_cases h2 : data.Url = "" <;> simp [h1, h2]
  · unfold rewriteManifest
    by_cases h1 : data.IndexJson = "" <;> by_cases h2 : data.Url = "" <;> simp [h1, h2]
  · rw [hA]
    simp [GoMap.keys, List.map_map, Function.comp_def]

/-- Witness of `ModifyAssetAddress_rewrites`: the one-image sprite manifest of
the sample environment, read with the prefix `https://cdn`. -/
theorem ModifyAssetAddress_rewrites_witness :
    ModifyAssetAddress sampleEnv (renderAddressData imageManifest)
      = (renderAddressData { imageManifest with
            Assets := [("image", "https://cdn/sprites/cat.svg")],
            IndexJson := "https://cdn/index.json" }, none)
    ∧ (rewriteManifest "https://cdn" imageManifest).Url = "" := by
  have h := ModifyAssetAddress_rewrites sampleEnv (renderAddressData imageManifest)
    imageManifest (by rfl) (by decide)
  refine ⟨?_, ?_⟩
  · rw [h.1]
    decide
  · decide

/-- C1, counterexample.  A stored manifest whose slot `sound` holds the empty
string (prefix `https://cdn`): the manifest returned holds `https://cdn/` in
that slot, not the empty string. -/
theorem ModifyAssetAddress_empty_slot_not_preserved :
    sampleEnv.UnmarshalAddressData (renderAddressData emptySoundManifest)
      = Except.ok emptySoundManifest
    ∧ GoMap.get emptySoundManifest.Assets "sound" = some ""
    ∧ ModifyAssetAddress sampleEnv (renderAddressData emptySoundManifest)
      = (renderAddressData { emptySoundManifest with Assets := [("sound", "https://cdn/")] },
          none)
    ∧ GoMap.get (rewriteManifest "https://cdn" emptySoundManifest).Assets "sound"
      = some "https://cdn/"
    ∧ GoMap.get (rewriteManifest "https://cdn" emptySoundManifest).Assets "sound" ≠ some "" := by
  refine ⟨by rfl, by decide, by decide, by decide, by decide⟩

/-! ## C4, C5, C6: project service -/

theorem ProjectInfo_empty_id (env : Env σ) (s : σ) :
    ProjectInfo env s "" = (none, some Err.ErrNotExist) := by
  simp [ProjectInfo]

theorem ProjectInfo_of_absent (env : Env σ) (s : σ) (id : String) (hid : id ≠ "")
    (habs : env.QueryByIdProject s id = (none, none)) :
    ProjectInfo env s id = (none, none) := by
  simp [ProjectInfo, hid, habs]

/-- C4, the code at the failing input.  In the sample environment, where
`QueryById` returns no row and no error for an id that has no row:
`ProjectInfo` with the empty id returns `ErrNotExist`, but with the id `p1` on
an empty store, and with the id `p1` after `DeleteProject` has removed that
project, it returns no project and no error. -/
theorem ProjectInfo_absent_row_no_error :
    ProjectInfo sampleEnv emptyStore "" = (none, some Err.ErrNotExist)
    ∧ sampleEnv.QueryByIdProject emptyStore "p1" = (none, none)
    ∧ ProjectInfo sampleEnv emptyStore "p1" = (none, none)
    ∧ (DeleteProject sampleEnv storeA "p1" "u1").1 = Run.ret none
    ∧ ProjectInfo sampleEnv (DeleteProject sampleEnv storeA "p1" "u1").2 "p1" = (none, none) := by
  refine ⟨by decide, by decide, by decide, by decide, by decide⟩

/-- C5.  When the project row exists and its `authorId` differs from `userId`,
`DeleteProject` returns `ErrPermissions` and the state of the two stores after
the call is the state before it: neither `bucket.Delete` nor
`DeleteProjectById` has run, and the row is still found. -/
theorem DeleteProject_not_owner (env : Env σ) (s : σ) (id userId : String) (row : Project)
    (err : Option Err) (hrow : env.QueryByIdProject s id = (some row, err))
    (hne : row.AuthorId ≠ userId) :
    DeleteProject env s id userId = (Run.ret (some Err.ErrPermissions), s)
    ∧ env.QueryByIdProject (DeleteProject env s id userId).2 id = (some row, err) := by
  have h : DeleteProject env s id userId = (Run.ret (some Err.ErrPermissions), s) := by
    simp [DeleteProject, hrow, hne]
  exact ⟨h, by rw [h]; exact hrow⟩

/-- Witness of `DeleteProject_not_owner`: user `u2` deletes the project of `u1`;
the row and the blob remain. -/
theorem DeleteProject_not_owner_witness :
    sampleEnv.QueryByIdProject storeA "p1" = (some projectA, none)
    ∧ projectA.AuthorId ≠ "u2"
    ∧ DeleteProject sampleEnv storeA "p1" "u2" = (Run.ret (some Err.ErrPermissions), storeA)
    ∧ storeA.project = [projectA] ∧ storeA.blobs = ["projects/1-a.zip"] :=
  ⟨by decide, by decide,
    (DeleteProject_not_owner sampleEnv storeA "p1" "u2" projectA none (by decide) (by decide)).1,
    by decide, by decide⟩

theorem wrapInt_of_range (x : Int) (h1 : -2 ^ 63 ≤ x) (h2 : x < 2 ^ 63) : wrapInt x = x := by
  unfold wrapInt
  omega

/-- C6 (as amended).  `SaveProject` on a project with an empty id uploads and,
when the upload succeeds, inserts the project with `version = 1` and returns
it with `version = 1`.  On a project with a non-empty id whose stored version
is the `int` `v`: when `bucket.Delete` fails, or succeeds and the upload
fails, it returns that error and the state is the one these calls left
(`UpdateProject` has not run); when both succeed, `UpdateProject` receives the
project with the new key and the version `v + 1` as an `int` computes it, and
that project is returned with the result of `UpdateProject`; for `v` below the
largest `int`, `2^63 - 1`, that version is `v + 1` and is greater than `v`. -/
theorem SaveProject_version (env : Env σ) (s : σ) (project : Project) (file : File)
    (header : FileHeader) :
    (project.ID = "" →
      (∀ path err s1,
        env.UploadFile s (env.Getenv "PROJECT_PATH") file header.Filename = ((path, some err), s1) →
        SaveProject env s project file header = ((none, some err), s1))
      ∧ (∀ path s1,
        env.UploadFile s (env.Getenv "PROJECT_PATH") file header.Filename = ((path, none), s1) →
        ∀ stored, stored = { project with
            Address := path, Version := 1, Status := 1, IsPublic := PERSONAL } →
        stored.Version = 1
        ∧ SaveProject env s project file header
          = ((some { stored with ID := (env.AddProject s1 stored).1.1 },
              (env.AddProject s1 stored).1.2), (env.AddProject s1 stored).2)))
    ∧ (project.ID ≠ "" →
      (∀ err s1,
        env.BucketDelete s (env.GetProjectAddress s project.ID) = (some err, s1) →
        SaveProject env s project file header = ((none, some err), s1))
      ∧ (∀ s1 path err s2,
        env.BucketDelete s (env.GetProjectAddress s project.ID) = (none, s1) →
        env.UploadFile s1 (env.Getenv "PROJECT_PATH") file header.Filename
          = ((path, some err), s2) →
        SaveProject env s project file header = ((none, some err), s2))
      ∧ (∀ s1 path s2,
        env.BucketDelete s (env.GetProjectAddress s project.ID) = (none, s1) →
        env.UploadFile s1 (env.Getenv "PROJECT_PATH") file header.Filename = ((path, none), s2) →
        ∀ stored, stored = { project with
            Address := path, Version := wrapInt (env.GetProjectVersion s project.ID + 1) } →
        SaveProject env s project file header
          = ((some stored, (env.UpdateProject s2 stored).1), (env.UpdateProject s2 stored).2)
        ∧ (-2 ^ 63 ≤ env.GetProjectVersion s project.ID →
            env.GetProjectVersion s project.ID < 2 ^ 63 - 1 →
            stored.Version = env.GetProjectVersion s project.ID + 1
            ∧ env.GetProjectVersion s project.ID < stored.Version))) := by
  refine ⟨fun hid => ⟨?_, ?_⟩, fun hid => ⟨?_, ?_, ?_⟩⟩
  · intro path err s1 hup
    simp [SaveProject, hid, hup]
  · intro path s1 hup stored hst
    subst hst
    simp [SaveProject, hid, hup]
  · intro err s1 hdel
    simp [SaveProject, hid, hdel]
  · intro s1 path err s2 hdel hup
    simp [SaveProject, hid, hdel, hup]
  · intro s1 path s2 hdel hup stored hst
    subst hst
    refine ⟨by simp [SaveProject, hid, hdel, hup], fun hlo hhi => ?_⟩
    have hw := wrapInt_of_range (env.GetProjectVersion s project.ID + 1) (by omega) (by omega)
    show wrapInt (env.GetProjectVersion s project.ID + 1) = env.GetProjectVersion s project.ID + 1
      ∧ env.GetProjectVersion s project.ID < wrapInt (env.GetProjectVersion s project.ID + 1)
    rw [hw]
    omega

/-- Witness of `SaveProject_version`, on the sample environment: the first save
stores version 1; a second save of the stored project (version 1) stores
version 2 under a new key; when the delete or the upload fails the row keeps
version 1 and its key. -/
theorem SaveProject_version_witness :
    (SaveProject sampleEnv emptyStore newProject zipHeader.Open zipHeader).1
        = (some { newProject with
            ID := "2", Address := "projects/1-a.zip", Version := 1, Status := 1 }, none)
    ∧ (SaveProject sampleEnv storeA projectA zipHeader.Open zipHeader).1
        = (some { projectA with Address := "projects/2-a.zip", Version := 2 }, none)
    ∧ (SaveProject sampleEnv storeA projectA zipHeader.Open zipHeader).2.project
        = [{ projectA with Address := "projects/2-a.zip", Version := 2 }]
    ∧ sampleEnv.GetProjectVersion storeA projectA.ID
        < wrapInt (sampleEnv.GetProjectVersion storeA projectA.ID + 1)
    ∧ SaveProject sampleEnv storeDeleteDown projectA zipHeader.Open zipHeader
        = ((none, some (Err.other "bucket down")), storeDeleteDown)
    ∧ (SaveProject sampleEnv storeUploadDown projectA zipHeader.Open zipHeader).1
        = (none, some (Err.other "bucket down"))
    ∧ (SaveProject sampleEnv storeUploadDown projectA zipHeader.Open zipHeader).2.project
        = [projectA] := by
  have hnew := SaveProject_version sampleEnv emptyStore newProject zipHeader.Open zipHeader
  have hA := SaveProject_version sampleEnv storeA projectA zipHeader.Open zipHeader
  have hD := SaveProject_version sampleEnv storeDeleteDown projectA zipHeader.Open zipHeader
  have hU := SaveProject_version sampleEnv storeUploadDown projectA zipHeader.Open zipHeader
  have h1 := ((hnew.1 (by decide)).2 "projects/1-a.zip"
    (sampleEnv.UploadFile emptyStore "projects" zipHeader.Open "a.zip").2 (by decide) _ rfl).2
  have h2 := (hA.2 (by decide)).2.2 (sampleEnv.BucketDelete storeA "projects/1-a.zip").2
    "projects/2-a.zip"
    (sampleEnv.UploadFile (sampleEnv.BucketDelete storeA "projects/1-a.zip").2 "projects"
      zipHeader.Open "a.zip").2 (by decide) (by decide) _ rfl
  have h3 := (hD.2 (by decide)).1 (Err.other "bucket down") storeDeleteDown (by decide)
  have h4 := (hU.2 (by decide)).2.1 (sampleEnv.BucketDelete storeUploadDown "projects/1-a.zip").2
    "" (Err.other "bucket down") (sampleEnv.BucketDelete storeUploadDown "projects/1-a.zip").2
    (by decide) (by decide)
  refine ⟨?_, ?_, ?_, (h2.2 (by decide) (by decide)).2, h3, ?_, ?_⟩
  · rw [h1]; decide
  · rw [h2.1]; decide
  · rw [h2.1]; decide
  · rw [h4]
  · rw [h4]; decide

/-- C6, counterexample.  A project whose stored version is the largest `int`,
`9223372036854775807`: delete, upload and row update all succeed, and the
version persisted and returned is `-9223372036854775808`, which is not
greater than the stored one and is not the stored one plus one. -/
theorem SaveProject_version_wraps :
    sampleEnv.GetProjectVersion storeMax "p1" = 9223372036854775807
    ∧ (SaveProject sampleEnv storeMax projectMax zipHeader.Open zipHeader).1
        = (some { projectMax with
            Address := "projects/2-a.zip", Version := -9223372036854775808 }, none)
    ∧ (SaveProject sampleEnv storeMax projectMax zipHeader.Open zipHeader).2.project
        = [{ projectMax with Address := "projects/2-a.zip", Version := -9223372036854775808 }]
    ∧ ¬ ((9223372036854775807 : Int) < -9223372036854775808)
    ∧ (-9223372036854775808 : Int) ≠ 9223372036854775807 + 1 := by
  refine ⟨by decide, by decide, by decide, by decide, by decide⟩

/-! ## C2, C3: sprite ingest -/

theorem digitChar_value (k : Nat) (hk : k < 10) : (Nat.digitChar k).toNat - 48 = k := by
  interval_cases k <;> rfl

theorem toDigitsCore_value (fuel : Nat) : ∀ (n : Nat) (ds : List Char), n < fuel →
    ∃ front, Nat.toDigitsCore 10 fuel n ds = front ++ ds ∧ decimalValue front = n := by
  induction fuel with
  | zero => intro n ds h; omega
  | succ f ih =>
    intro n ds h
    simp only [Nat.toDigitsCore]
    split
    · rename_i h0
      refine ⟨[Nat.digitChar (n % 10)], by simp, ?_⟩
      have hlt : n < 10 := by omega
      simp [decimalValue, Nat.mod_eq_of_lt hlt, digitChar_value n hlt]
    · rename_i h0
      have hlt : n / 10 < f := by omega
      obtain ⟨front, hfront, hval⟩ := ih (n / 10) (Nat.digitChar (n % 10) :: ds) hlt
      refine ⟨front ++ [Nat.digitChar (n % 10)], by simp [hfront], ?_⟩
      have hd := digitChar_value (n % 10) (Nat.mod_lt n (by decide))
      unfold decimalValue at hval ⊢
      rw [List.foldl_append, hval]
      simp only [List.foldl_cons, List.foldl_nil, hd]
      omega

theorem decimalValue_Itoa (i : Nat) : decimalValue (Itoa i).data = i := by
  obtain ⟨front, hfront, hval⟩ := toDigitsCore_value (i + 1) i [] (Nat.lt_succ_self i)
  have : (Itoa i).data = front := by simpa [Itoa, Nat.toDigits] using hfront
  rw [this, hval]

theorem Itoa_injective (i j : Nat) (h : Itoa i = Itoa j) : i = j := by
  have hi := decimalValue_Itoa i
  rw [h, decimalValue_Itoa j] at hi
  exact hi.symm

theorem slot_name_injective (i j : Nat) (h : "image" ++ Itoa i = "image" ++ Itoa j) : i = j := by
  apply Itoa_injective
  have h2 := congrArg String.data h
  simp only [String.data_append] at h2
  exact String.ext (List.append_cancel_left h2)

theorem GoMap.set_of_not_mem (m : GoMap) (k v : String) (hk : k ∉ GoMap.keys m) :
    GoMap.set m k v = m ++ [(k, v)] := by
  have h := GoMap.set_append_of_not_mem m [] k v v hk
  induction m with
  | nil => simp [GoMap.set]
  | cons hd tl ih =>
    obtain ⟨k1, v1⟩ := hd
    have hne : k1 ≠ k := by
      intro h
      exact hk (by simp [GoMap.keys, h])
    have htl : k ∉ GoMap.keys tl := by
      intro h
      exact hk (by simp [GoMap.keys] at h ⊢; exact Or.inr h)
    simp [GoMap.set, hne, ih htl (GoMap.set_append_of_not_mem tl [] k v v htl)]

theorem keys_frameSlots (ks : List String) : ∀ i : Nat,
    GoMap.keys (frameSlots i ks) = (List.range' i ks.length).map (fun j => "image" ++ Itoa j) := by
  induction ks with
  | nil => intro i; simp [frameSlots, GoMap.keys]
  | cons k ks ih =>
    intro i
    have h := ih (i + 1)
    simp only [GoMap.keys] at h
    simp [frameSlots, GoMap.keys, List.range'_succ, h]

theorem uploadFrames_of_uploadsYield (env : Env σ) (files : List FileHeader) :
    ∀ (keys : List String) (s s1 : σ) (i : Nat) (assets : GoMap),
      uploadsYield env s files keys s1 →
      (∀ j, i ≤ j → "image" ++ Itoa j ∉ GoMap.keys assets) →
      uploadFrames env s i files assets = (Except.ok (assets ++ frameSlots i keys), s1)
        ∧ keys.length = files.length := by
  induction files with
  | nil =>
    intro keys s s1 i assets hy _
    cases keys with
    | nil => simp [uploadsYield] at hy; simp [uploadFrames, frameSlots, hy]
    | cons k ks => simp [uploadsYield] at hy
  | cons f fs ih =>
    intro keys s s1 i assets hy hfresh
    cases keys with
    | nil => simp [uploadsYield] at hy
    | cons k ks =>
      simp only [uploadsYield] at hy
      obtain ⟨h1, h2⟩ := hy
      have hset := GoMap.set_of_not_mem assets ("image" ++ Itoa i) k (hfresh i (Nat.le_refl i))
      have hfresh2 : ∀ j, i + 1 ≤ j →
          "image" ++ Itoa j ∉ GoMap.keys (assets ++ [("image" ++ Itoa i, k)]) := by
        intro j hj hmem
        simp only [GoMap.keys, List.map_append, List.map_cons, List.map_nil, List.mem_append,
          List.mem_singleton] at hmem
        rcases hmem with h | h
        · exact hfresh j (by omega) h
        · have := slot_name_injective j i h
          omega
      obtain ⟨hrec, hlen⟩ := ih ks _ s1 (i + 1) (assets ++ [("image" ++ Itoa i, k)]) h2 hfresh2
      refine ⟨?_, by simp [hlen]⟩
      have hup : env.UploadFile s (env.Getenv "SPRITE_PATH") f.Open f.Filename
          = ((k, none), (env.UploadFile s (env.Getenv "SPRITE_PATH") f.Open f.Filename).2) :=
        Prod.ext h1 rfl
      rw [uploadFrames, hup]
      simp only [hset, hrec, frameSlots, List.append_assoc, List.singleton_append]

theorem get_frameSlots (ks : List String) : ∀ (i j : Nat) (h : j < ks.length),
    GoMap.get (frameSlots i ks) ("image" ++ Itoa (i + j)) = some (ks.get ⟨j, h⟩) := by
  induction ks with
  | nil => intro i j h; simp at h
  | cons k ks ih =>
    intro i j h
    cases j with
    | zero => simp [frameSlots, GoMap.get]
    | succ j =>
      have hne : ¬ ("image" ++ Itoa i = "image" ++ Itoa (i + (j + 1))) := by
        intro hEq
        have := slot_name_injective _ _ hEq
        omega
      have hj : j < ks.length := by simpa using h
      have hrec := ih (i + 1) j hj
      have hidx : i + 1 + j = i + (j + 1) := by omega
      rw [hidx] at hrec
      simp only [frameSlots, GoMap.get, hne, if_false, hrec]
      rfl

theorem nodup_slot_names (n : Nat) :
    ((List.range n).map (fun j => "image" ++ Itoa j)).Nodup :=
  List.Nodup.map (fun i j h => slot_name_injective i j h) (List.nodup_range n)

theorem length_frameSlots (ks : List String) : ∀ i : Nat, (frameSlots i ks).length = ks.length := by
  induction ks with
  | nil => intro i; rfl
  | cons k ks ih => intro i; simp [frameSlots, ih]

/-- C2.  For `K >= 2` files whose uploads under `SPRITE_PATH` all succeed and
return the keys `keys` (and an animated URL at least as long as `QINIU_PATH`,
so that the slice does not panic), `UploadSprite` builds the manifest with
`type = "gif"`, `indexJson = "index.json"` and the map `assets` of exactly `K`
slots, named `image0`, ..., `image{K-1}` without repetition, slot `image{i}`
holding the key of the upload of the `i`-th file; and, `json.Marshal` yielding
`jsonData` for it, `AddAsset` receives the row whose address is `jsonData`. -/
theorem UploadSprite_gif_manifest (env : Env σ) (s s1 : σ) (name : String)
    (files : List FileHeader) (gifPath uid tag publishState : String) (keys : List String)
    (hK : 2 ≤ files.length) (hup : uploadsYield env s files keys s1)
    (hlen : len (env.Getenv "QINIU_PATH") ≤ len gifPath) :
    UploadSprite_data env s files gifPath
        = (Run.ret (Except.ok
            { Assets := frameSlots 0 keys, IndexJson := "index.json", Type_ := "gif",
              Url := ⟨gifPath.data.drop (len (env.Getenv "QINIU_PATH"))⟩ }), s1)
      ∧ (frameSlots 0 keys).length = files.length
      ∧ GoMap.keys (frameSlots 0 keys) = (List.range files.length).map (fun i => "image" ++ Itoa i)
      ∧ (GoMap.keys (frameSlots 0 keys)).Nodup
      ∧ (∀ (i : Nat) (h : i < keys.length),
          GoMap.get (frameSlots 0 keys) ("image" ++ Itoa i) = some (keys.get ⟨i, h⟩))
      ∧ (∀ jsonData,
          env.MarshalAddressData
              { Assets := frameSlots 0 keys, IndexJson := "index.json", Type_ := "gif",
                Url := ⟨gifPath.data.drop (len (env.Getenv "QINIU_PATH"))⟩ }
            = Except.ok jsonData →
          UploadSprite env s name files gifPath uid tag publishState
            = (Run.ret (env.AddAsset (env.Now (env.Now s1).2).2
                  { ID := "", Name := name, AuthorId := uid, Category := tag,
                    IsPublic := (env.Atoi publishState).1, Address := jsonData,
                    AssetType := "0", ClickCount := "0", Status := 1,
                    CTime := (env.Now s1).1, UTime := (env.Now (env.Now s1).2).1 }).1.2,
                (env.AddAsset (env.Now (env.Now s1).2).2
                  { ID := "", Name := name, AuthorId := uid, Category := tag,
                    IsPublic := (env.Atoi publishState).1, Address := jsonData,
                    AssetType := "0", ClickCount := "0", Status := 1,
                    CTime := (env.Now s1).1, UTime := (env.Now (env.Now s1).2).1 }).2)) := by
  obtain ⟨hframes, hklen⟩ := uploadFrames_of_uploadsYield env files keys s s1 0 [] hup
    (by intro j _; simp [GoMap.keys])
  have hdata : UploadSprite_data env s files gifPath
      = (Run.ret (Except.ok
          { Assets := frameSlots 0 keys, IndexJson := "index.json", Type_ := "gif",
            Url := ⟨gifPath.data.drop (len (env.Getenv "QINIU_PATH"))⟩ }), s1) := by
    match files, hK with
    | f1 :: f2 :: fs, _ =>
      simp only [List.nil_append] at hframes
      simp [UploadSprite_data, hframes, sliceFrom, hlen]
  have hkeys := keys_frameSlots keys 0
  refine ⟨hdata, ?_, ?_, ?_, ?_, ?_⟩
  · rw [length_frameSlots, hklen]
  · rw [hkeys, hklen, List.range_eq_range']
  · rw [hkeys, ← List.range_eq_range']
    exact nodup_slot_names keys.length
  · intro i h
    have := get_frameSlots keys 0 i h
    simpa using this
  · intro jsonData hjson
    simp [UploadSprite, hdata, hjson]

/-- Witness of `UploadSprite_gif_manifest`: three frames on the empty sample
store. -/
theorem UploadSprite_gif_manifest_witness :
    (UploadSprite_data sampleEnv emptyStore frames3 "https://cdn/gifs/x.gif").1
        = Run.ret (Except.ok frames3Manifest)
    ∧ GoMap.keys frames3Manifest.Assets = ["image0", "image1", "image2"]
    ∧ GoMap.get frames3Manifest.Assets "image1" = some "sprites/2-f2.png" := by
  have h := UploadSprite_gif_manifest sampleEnv emptyStore
    (sampleEnv.UploadFile (sampleEnv.UploadFile (sampleEnv.UploadFile emptyStore "sprites"
      (some [1]) "f1.png").2 "sprites" (some [2]) "f2.png").2 "sprites" (some [3]) "f3.png").2
    "s" frames3 "https://cdn/gifs/x.gif" "u1" "cat" "1"
    ["sprites/1-f1.png", "sprites/2-f2.png", "sprites/3-f3.png"] (by decide)
    ⟨by decide, by decide, by decide, rfl⟩ (by decide)
  refine ⟨?_, by decide, by decide⟩
  rw [h.1]
  decide

theorem sliceFrom_after_cdn (p k : String) :
    sliceFrom (p ++ "/" ++ k) (len p) = some ("/" ++ k) := by
  have hle : len p ≤ len (p ++ "/" ++ k) := by
    simp [len, String.data_append]
  simp only [sliceFrom, hle, if_true, Option.some.injEq]
  apply String.ext
  simp [len, String.data_append, List.append_assoc]

/-- C3, the code at the failing input.  `ImagesToGif` returns
`QINIU_PATH + "/" + key`; `UploadSprite`, called with the three frames and the
animated URL `https://cdn/gifs/x.gif` where `QINIU_PATH = https://cdn`, stores
the manifest whose `url` is `/gifs/x.gif`, with the slash, not the relative
key `gifs/x.gif`; the public URL `QINIU_PATH + "/" + url` that a read builds
from it is `https://cdn//gifs/x.gif`, not the URL supplied. -/
theorem UploadSprite_url_keeps_slash :
    (ImagesToGif sampleEnv emptyStore frames3).1 = ("https://cdn/gifs/1-output.gif", none)
    ∧ sampleEnv.Getenv "QINIU_PATH" = "https://cdn"
    ∧ (UploadSprite_data sampleEnv emptyStore frames3 ("https://cdn" ++ "/" ++ "gifs/x.gif")).1
        = Run.ret (Except.ok frames3Manifest)
    ∧ frames3Manifest.Url = "/gifs/x.gif"
    ∧ frames3Manifest.Url ≠ "gifs/x.gif"
    ∧ (UploadSprite sampleEnv emptyStore "s" frames3 "https://cdn/gifs/x.gif" "u1" "cat" "1").1
        = Run.ret none
    ∧ (UploadSprite sampleEnv emptyStore "s" frames3 "https://cdn/gifs/x.gif" "u1" "cat" "1").2.asset
        = [{ ID := "4", Name := "s", AuthorId := "u1", Category := "cat", IsPublic := 1,
             Address := renderAddressData frames3Manifest, AssetType := "0", ClickCount := "0",
             Status := 1, CTime := 100, UTime := 101 }]
    ∧ (rewriteManifest "https://cdn" frames3Manifest).Url = "https://cdn//gifs/x.gif"
    ∧ (rewriteManifest "https://cdn" frames3Manifest).Url ≠ "https://cdn/gifs/x.gif" := by
  refine ⟨by decide, by decide, by decide, by decide, by decide, by decide, by decide,
    by decide, by decide⟩

/-! ## C7, C8, C10: search and lists -/

theorem foldl_append_singleton {α β : Type} (g : α → β) (l : List α) : ∀ init : List β,
    l.foldl (fun acc a => acc ++ [g a]) init = init ++ l.map g := by
  induction l with
  | nil => intro init; simp
  | cons a l ih => intro init; simp [ih]

theorem SearchAsset_eq (env : Env σ) (s : σ) (search assetType userId : String)
    (hq : env.QueryFault s = none) :
    SearchAsset env s search assetType userId
      = (((env.AssetRows s).filter (SearchAsset_where env search assetType userId)).map
          (fun r => { r with Address := (ModifyAssetAddress env r.Address).1 }), none) := by
  have hfold := foldl_append_singleton
    (fun r : Asset => { r with Address := (ModifyAssetAddress env r.Address).1 })
    ((env.AssetRows s).filter (SearchAsset_where env search assetType userId)) []
  simp only [List.nil_append] at hfold
  simp only [SearchAsset, dbQuery, hq, hfold]
  split
  · rename_i h0
    rw [List.length_eq_zero] at h0
    rw [h0]
  · rfl

theorem sqlLike_cons_percent (eqv : Char → Char → Bool) (ps s : List Char) :
    sqlLike eqv ('%' :: ps) s = s.tails.any (fun t => sqlLike eqv ps t) := by
  rw [sqlLike.eq_def]
  simp

theorem sqlLike_cons_literal (eqv : Char → Char → Bool) (p : Char) (ps s : List Char)
    (h1 : p ≠ '%') (h2 : p ≠ '_') (h3 : p ≠ '\\') :
    sqlLike eqv (p :: ps) s = (match s with
      | [] => false
      | c :: cs => eqv p c && sqlLike eqv ps cs) := by
  rw [sqlLike.eq_def]
  cases s <;> simp [h1, h2, h3]

theorem sqlLike_percent (eqv : Char → Char → Bool) (ps s : List Char) :
    sqlLike eqv ('%' :: ps) s = true ↔ ∃ pre t, s = pre ++ t ∧ sqlLike eqv ps t = true := by
  rw [sqlLike_cons_percent]
  simp only [List.any_eq_true, List.mem_tails]
  constructor
  · rintro ⟨t, ⟨pre, hpre⟩, ht⟩
    exact ⟨pre, t, hpre.symm, ht⟩
  · rintro ⟨pre, t, hs, ht⟩
    exact ⟨t, ⟨pre, hs.symm⟩, ht⟩

theorem sqlLike_literal (eqv : Char → Char → Bool) (q : List Char)
    (hlit : ∀ c ∈ q, c ≠ '%' ∧ c ≠ '_' ∧ c ≠ '\\') : ∀ (rest s : List Char),
    sqlLike eqv (q ++ rest) s = true ↔
      ∃ mid t, s = mid ++ t ∧ List.Forall₂ (fun a b => eqv a b = true) q mid
        ∧ sqlLike eqv rest t = true := by
  induction q with
  | nil =>
    intro rest s
    constructor
    · intro h
      exact ⟨[], s, rfl, List.Forall₂.nil, h⟩
    · rintro ⟨mid, t, hs, hmid, ht⟩
      cases hmid
      simpa [hs] using ht
  | cons c q ih =>
    intro rest s
    obtain ⟨h1, h2, h3⟩ := hlit c (List.mem_cons_self c q)
    have ihq := ih (fun d hd => hlit d (List.mem_cons_of_mem c hd)) rest
    rw [List.cons_append, sqlLike_cons_literal eqv c (q ++ rest) s h1 h2 h3]
    cases s with
    | nil =>
      constructor
      · intro h
        simp at h
      · rintro ⟨mid, t, hs, hmid, _⟩
        cases hmid with
        | cons _ _ => simp at hs
    | cons d ds =>
      simp only [Bool.and_eq_true, ihq ds]
      constructor
      · rintro ⟨hcd, mid, t, hds, hmid, ht⟩
        exact ⟨d :: mid, t, by rw [hds, List.cons_append], List.Forall₂.cons hcd hmid, ht⟩
      · rintro ⟨mid, t, hs, hmid, ht⟩
        cases hmid with
        | cons hcd hrest =>
          rw [List.cons_append, List.cons.injEq] at hs
          obtain ⟨hd, hds⟩ := hs
          subst hd
          exact ⟨hcd, _, t, hds, hrest, ht⟩

theorem sqlLike_contains (eqv : Char → Char → Bool) (q name : List Char)
    (hlit : ∀ c ∈ q, c ≠ '%' ∧ c ≠ '_' ∧ c ≠ '\\') :
    sqlLike eqv ('%' :: (q ++ ['%'])) name = true ↔ containsUnder eqv q name := by
  rw [sqlLike_percent]
  constructor
  · rintro ⟨pre, t, hs, ht⟩
    obtain ⟨mid, post, hpost, hmid, _⟩ := (sqlLike_literal eqv q hlit ['%'] t).1 ht
    exact ⟨pre, mid, post, by rw [hs, hpost, List.append_assoc], hmid⟩
  · rintro ⟨pre, mid, post, hs, hmid⟩
    refine ⟨pre, mid ++ post, by rw [hs, List.append_assoc], ?_⟩
    refine (sqlLike_literal eqv q hlit ['%'] (mid ++ post)).2 ⟨mid, post, rfl, hmid, ?_⟩
    exact (sqlLike_percent eqv [] post).2 ⟨post, [], by simp, by simp [sqlLike]⟩

theorem containsUnder_exact (eqv : Char → Char → Bool) (hex : ∀ a b, eqv a b = (a == b))
    (q name : List Char) :
    containsUnder eqv q name ↔ ∃ pre post, name = pre ++ q ++ post := by
  have hall : ∀ mid : List Char, List.Forall₂ (fun a b => eqv a b = true) q mid ↔ q = mid := by
    intro mid
    have hrel : (fun a b => eqv a b = true) = (fun a b : Char => a = b) := by
      funext a b
      simp [hex]
    rw [hrel, List.forall₂_eq_eq_eq]
  constructor
  · rintro ⟨pre, mid, post, hs, hmid⟩
    exact ⟨pre, post, by rw [hs, (hall mid).1 hmid]⟩
  · rintro ⟨pre, post, hs⟩
    exact ⟨pre, q, post, hs, (hall q).2 rfl⟩

theorem searchString_data (search : String) :
    ("%" ++ search ++ "%").data = '%' :: (search.data ++ ['%']) := by
  simp [String.data_append]

theorem SearchAsset_where_iff (env : Env σ) (search assetType userId : String) (r : Asset) :
    SearchAsset_where env search assetType userId r = true ↔
      sqlLike env.Collate ('%' :: (search.data ++ ['%'])) r.Name.data = true
        ∧ env.StrEq r.AssetType assetType = true
        ∧ (r.IsPublic = 1 ∨ (userId ≠ "" ∧ env.StrEq r.AuthorId userId = true)) := by
  unfold SearchAsset_where
  by_cases hu : userId = ""
  · simp [hu, searchString_data, and_assoc]
  · simp [hu, searchString_data, and_assoc]

/-- C7 (as amended).  When the statement does not fail and the query contains
none of the characters `%`, `_` and backslash, `SearchAsset` returns no error
and returns exactly the rows of the table (with the address rewritten) whose
`assetType` the engine's `=` holds equal to the requested one, whose name
contains the query up to the collation of the column, and that are public
(`is_public = 1`) or, for a non-empty `userId`, have an `authorId` that `=`
holds equal to `userId`.  On a database whose collation compares exactly,
these are the rows that have the requested `assetType`, a name containing the
query, and that are public or, for a non-empty `userId`, authored by it. -/
theorem SearchAsset_visibility (env : Env σ) (s : σ) (search assetType userId : String)
    (hq : env.QueryFault s = none)
    (hlit : ∀ c ∈ search.data, c ≠ '%' ∧ c ≠ '_' ∧ c ≠ '\\') :
    (SearchAsset env s search assetType userId).2 = none
    ∧ (∀ a : Asset, a ∈ (SearchAsset env s search assetType userId).1 ↔
        ∃ r ∈ env.AssetRows s,
          a = { r with Address := (ModifyAssetAddress env r.Address).1 }
          ∧ env.StrEq r.AssetType assetType = true
          ∧ containsUnder env.Collate search.data r.Name.data
          ∧ (r.IsPublic = 1 ∨ (userId ≠ "" ∧ env.StrEq r.AuthorId userId = true)))
    ∧ ((∀ a b, env.Collate a b = (a == b)) → (∀ x y, env.StrEq x y = (x == y)) →
        ∀ a : Asset, a ∈ (SearchAsset env s search assetType userId).1 ↔
          ∃ r ∈ env.AssetRows s,
            a = { r with Address := (ModifyAssetAddress env r.Address).1 }
            ∧ r.AssetType = assetType
            ∧ (∃ pre post, r.Name.data = pre ++ search.data ++ post)
            ∧ (r.IsPublic = 1 ∨ (userId ≠ "" ∧ r.AuthorId = userId))) := by
  have hgen : ∀ a : Asset, a ∈ (SearchAsset env s search assetType userId).1 ↔
      ∃ r ∈ env.AssetRows s,
        a = { r with Address := (ModifyAssetAddress env r.Address).1 }
        ∧ env.StrEq r.AssetType assetType = true
        ∧ containsUnder env.Collate search.data r.Name.data
        ∧ (r.IsPublic = 1 ∨ (userId ≠ "" ∧ env.StrEq r.AuthorId userId = true)) := by
    intro a
    rw [SearchAsset_eq env s search assetType userId hq]
    simp only [List.mem_map, List.mem_filter, SearchAsset_where_iff,
      sqlLike_contains env.Collate search.data _ hlit]
    constructor
    · rintro ⟨r, ⟨hr, hname, htype, hvis⟩, ha⟩
      exact ⟨r, hr, ha.symm, htype, hname, hvis⟩
    · rintro ⟨r, hr, ha, htype, hname, hvis⟩
      exact ⟨r, ⟨hr, hname, htype, hvis⟩, ha.symm⟩
  refine ⟨?_, hgen, ?_⟩
  · rw [SearchAsset_eq env s search assetType userId hq]
  · intro hc hs a
    rw [hgen a]
    simp only [hs, beq_iff_eq, containsUnder_exact env.Collate hc]

/-- Witness of `SearchAsset_visibility`.  Scenario S6 on the sample database,
whose collation does not tell case apart: with A (public, `u1`) and B
(private, `u2`), the empty query returns A to nobody and to `u1`, and A and B
to `u2`; the query `OG` as `u2` returns B, whose name `dog` contains it up to
the collation.  On the database with a binary collation the query `og` as `u2`
returns B, whose name `dog` contains it. -/
theorem SearchAsset_visibility_witness :
    SearchAsset sampleEnv storeAB "" "0" "" = ([assetA_read], none)
    ∧ SearchAsset sampleEnv storeAB "" "0" "u1" = ([assetA_read], none)
    ∧ SearchAsset sampleEnv storeAB "" "0" "u2" = ([assetA_read, assetB_read], none)
    ∧ SearchAsset sampleEnv storeAB "OG" "0" "u2" = ([assetB_read], none)
    ∧ (assetB_read ∈ (SearchAsset sampleEnv storeAB "OG" "0" "u2").1 ↔
        ∃ r ∈ sampleEnv.AssetRows storeAB,
          assetB_read = { r with Address := (ModifyAssetAddress sampleEnv r.Address).1 }
          ∧ sampleEnv.StrEq r.AssetType "0" = true
          ∧ containsUnder sampleEnv.Collate "OG".data r.Name.data
          ∧ (r.IsPublic = 1 ∨ ("u2" ≠ "" ∧ sampleEnv.StrEq r.AuthorId "u2" = true)))
    ∧ SearchAsset binaryEnv storeAB "og" "0" "u2" = ([assetB_read], none)
    ∧ SearchAsset binaryEnv storeAB "OG" "0" "u2" = ([], none)
    ∧ (assetB_read ∈ (SearchAsset binaryEnv storeAB "og" "0" "u2").1 ↔
        ∃ r ∈ binaryEnv.AssetRows storeAB,
          assetB_read = { r with Address := (ModifyAssetAddress binaryEnv r.Address).1 }
          ∧ r.AssetType = "0"
          ∧ (∃ pre post, r.Name.data = pre ++ "og".data ++ post)
          ∧ (r.IsPublic = 1 ∨ ("u2" ≠ "" ∧ r.AuthorId = "u2"))) :=
  ⟨by decide, by decide, by decide, by decide,
    (SearchAsset_visibility sampleEnv storeAB "OG" "0" "u2" (by decide) (by decide)).2.1
      assetB_read,
    by decide, by decide,
    (SearchAsset_visibility binaryEnv storeAB "og" "0" "u2" (by decide) (by decide)).2.2
      (fun _ _ => rfl) (fun _ _ => rfl) assetB_read⟩

/-- C7, counterexample.  On the sample database, whose collation does not tell
case apart, with the public asset A named `cat`: for the query `_`
`SearchAsset` returns A, and the name `cat` does not contain `_`; for the
query `CAT` it returns A, and the name `cat` does not contain `CAT`. -/
theorem SearchAsset_wildcard_query :
    SearchAsset sampleEnv storeAB "_" "0" "" = ([assetA_read], none)
    ∧ assetA.Name = "cat"
    ∧ (¬ ∃ pre post : List Char, assetA.Name.data = pre ++ "_".data ++ post)
    ∧ SearchAsset binaryEnv storeAB "_" "0" "" = ([assetA_read], none)
    ∧ SearchAsset sampleEnv storeAB "CAT" "0" "" = ([assetA_read], none)
    ∧ (¬ ∃ pre post : List Char, assetA.Name.data = pre ++ "CAT".data ++ post) := by
  refine ⟨by decide, by decide, ?_, by decide, by decide, ?_⟩
  · rintro ⟨pre, post, h⟩
    have hmem : '_' ∈ assetA.Name.data := by
      rw [h]
      simp
    revert hmem
    decide
  · rintro ⟨pre, post, h⟩
    have hmem : 'C' ∈ assetA.Name.data := by
      rw [h]
      simp
    revert hmem
    decide

/-- C8 (as amended).  The asset search and list operations do not look at
`status`: whether the WHERE clause of `SearchAsset` holds of a row, and
whether the filter lists of `AssetPubList` and `UserAssetList` select it, is
the same for every value of its `status`; and a row that the WHERE clause
holds of is returned by `SearchAsset` (address rewritten, `status` as stored)
when the statement does not fail. -/
theorem status_not_consulted (env : Env σ) (search assetType userId category uid : String)
    (r : Asset) (st : Int) :
    SearchAsset_where env search assetType userId { r with Status := st }
        = SearchAsset_where env search assetType userId r
    ∧ selectedBy (AssetPubList_wheres assetType category) { r with Status := st }
        = selectedBy (AssetPubList_wheres assetType category) r
    ∧ selectedBy (UserAssetList_wheres assetType category uid) { r with Status := st }
        = selectedBy (UserAssetList_wheres assetType category uid) r
    ∧ (∀ s : σ, env.QueryFault s = none → r ∈ env.AssetRows s →
        SearchAsset_where env search assetType userId r = true →
        { r with Address := (ModifyAssetAddress env r.Address).1 }
            ∈ (SearchAsset env s search assetType userId).1
        ∧ ({ r with Address := (ModifyAssetAddress env r.Address).1 } : Asset).Status
            = r.Status) := by
  refine ⟨?_, ?_, ?_, ?_⟩
  · unfold SearchAsset_where
    by_cases hu : userId = "" <;> simp [hu]
  · unfold AssetPubList_wheres
    by_cases hc : category = "" <;>
      simp [hc, selectedBy, FilterCondition.holds, assetColumn]
  · unfold UserAssetList_wheres
    by_cases hc : category = "" <;>
      simp [hc, selectedBy, FilterCondition.holds, assetColumn]
  · intro s hq hr hw
    rw [SearchAsset_eq env s search assetType userId hq]
    exact ⟨List.mem_map.2 ⟨r, List.mem_filter.2 ⟨hr, hw⟩, rfl⟩, rfl⟩

/-- Witness of `status_not_consulted`: the row `assetDeleted`, with `status = 0`
and with `status = 1`. -/
theorem status_not_consulted_witness :
    SearchAsset_where sampleEnv "cat" "0" "" { assetDeleted with Status := 1 }
        = SearchAsset_where sampleEnv "cat" "0" "" assetDeleted
    ∧ SearchAsset_where sampleEnv "cat" "0" "" assetDeleted = true
    ∧ { assetDeleted with Address := (ModifyAssetAddress sampleEnv assetDeleted.Address).1 }
        ∈ (SearchAsset sampleEnv storeDeleted "cat" "0" "").1 :=
  have h := status_not_consulted sampleEnv "cat" "0" "" "" "u1" assetDeleted 1
  ⟨h.1, by decide, (h.2.2.2 storeDeleted (by decide) (by decide) (by decide)).1⟩

/-- C8, counterexample.  A public row with `status = 0`: `SearchAsset` returns
it, and the filter lists of `AssetPubList` and of `UserAssetList` select it. -/
theorem SearchAsset_returns_deleted_row :
    assetDeleted.Status = 0
    ∧ SearchAsset sampleEnv storeDeleted "cat" "0" ""
        = ([{ assetDeleted with Address := renderAddressData imageManifest_read }], none)
    ∧ (SearchAsset sampleEnv storeDeleted "cat" "0" "").1.map (fun a => a.Status) = [0]
    ∧ selectedBy (AssetPubList_wheres "0" "") assetDeleted = true
    ∧ selectedBy (AssetPubList_wheres "0" "animal") assetDeleted = true
    ∧ selectedBy (UserAssetList_wheres "0" "" "u1") assetDeleted = true := by
  refine ⟨by decide, by decide, by decide, by decide, by decide, by decide⟩

/-! ## C9: sound replacement -/

theorem SaveAsset_upload_error_dropped (env : Env σ) (s s1 s2 : σ) (asset : Asset)
    (file : File) (header : FileHeader) (data : GoMap × String) (path jsonBytes : String)
    (uploadErr : Option Err)
    (hdec : env.UnmarshalSound (env.GetAssetAddress s asset.ID) = Except.ok data)
    (hdel : env.BucketDelete s
      (match data.1 with
        | [] => env.GetAssetAddress s asset.ID
        | (_, value) :: _ => value) = (none, s1))
    (hup : env.UploadFile s1 (env.Getenv "SOUNDS_PATH") file header.Filename
      = ((path, uploadErr), s2))
    (hjson : env.MarshalNested [("assets", [("sound", path)])] = Except.ok jsonBytes) :
    SaveAsset env s asset file header
      = ((some { asset with Address := jsonBytes },
          (env.UpdateAsset s2 { asset with Address := jsonBytes }).1),
          (env.UpdateAsset s2 { asset with Address := jsonBytes }).2) := by
  simp only [SaveAsset, hdec]
  rw [hdel]
  simp only [hup, hjson]

/-- C9, the code at the failing input.  A sound asset whose blob exists, and a
bucket whose uploads fail with the error "bucket down": `SaveAsset` returns the
asset and no error, the old blob is gone, and the row is updated to the
manifest whose slot `sound` holds the empty string, which is the key of no
blob. -/
theorem SaveAsset_upload_failure_not_surfaced :
    (sampleEnv.UploadFile
        (sampleEnv.BucketDelete storeSoundUploadDown "sounds/a.wav").2 "sounds"
        wavHeader.Open "b.wav").1 = ("", some (Err.other "bucket down"))
    ∧ (SaveAsset sampleEnv storeSoundUploadDown assetSound wavHeader.Open wavHeader).1
        = (some { assetSound with Address := renderNested [("assets", [("sound", "")])] }, none)
    ∧ (SaveAsset sampleEnv storeSoundUploadDown assetSound wavHeader.Open wavHeader).2.asset
        = [{ assetSound with Address := renderNested [("assets", [("sound", "")])] }]
    ∧ (SaveAsset sampleEnv storeSoundUploadDown assetSound wavHeader.Open wavHeader).2.blobs
        = [] := by
  refine ⟨by decide, by decide, by decide, by decide⟩

/-! ## C10: malformed manifests -/

/-- C10.  For a row of the table that the WHERE clause of `SearchAsset` holds
of and whose address does not decode as a manifest (`json.Unmarshal` returns
the error `err`), and a statement that does not fail: `SearchAsset` returns no
error and its result contains that row with `address` set to the empty
string; and `Asset`, for an id under which `QueryById` finds that row, returns
the error `err` and no asset. -/
theorem SearchAsset_malformed_manifest (env : Env σ) (s : σ)
    (search assetType userId : String) (row : Asset) (err : Err)
    (hq : env.QueryFault s = none) (hrow : row ∈ env.AssetRows s)
    (hmatch : SearchAsset_where env search assetType userId row = true)
    (hbad : env.UnmarshalAddressData row.Address = Except.error err) :
    (SearchAsset env s search assetType userId).2 = none
    ∧ { row with Address := "" } ∈ (SearchAsset env s search assetType userId).1
    ∧ (∀ id, env.QueryByIdAsset s id = (some row, none) →
        Controller.Asset env s id = (none, some err)) := by
  have hmod : ModifyAssetAddress env row.Address = ("", some err) := by
    simp [ModifyAssetAddress, hbad]
  rw [SearchAsset_eq env s search assetType userId hq]
  refine ⟨rfl, ?_, ?_⟩
  · refine List.mem_map.2 ⟨row, List.mem_filter.2 ⟨hrow, hmatch⟩, ?_⟩
    simp [hmod]
  · intro id hid
    simp [Controller.Asset, hid, hmod]

/-- Witness of `SearchAsset_malformed_manifest`: a public row whose address is
the bare key `sprites/cat.svg`. -/
theorem SearchAsset_malformed_manifest_witness :
    sampleEnv.UnmarshalAddressData assetBroken.Address
        = Except.error (Err.other "invalid character")
    ∧ SearchAsset sampleEnv storeBroken "cat" "0" "" = ([{ assetBroken with Address := "" }], none)
    ∧ { assetBroken with Address := "" } ∈ (SearchAsset sampleEnv storeBroken "cat" "0" "").1
    ∧ Controller.Asset sampleEnv storeBroken "x" = (none, some (Err.other "invalid character")) :=
  have h := SearchAsset_malformed_manifest sampleEnv storeBroken "cat" "0" "" assetBroken
    (Err.other "invalid character") (by decide) (by decide) (by decide) (by decide)
  ⟨by decide, by decide, h.2.1, h.2.2 "x" (by decide)⟩

end Builder
